/-
Verification of the record-to-message pipeline and dispatch engine of
simple-mailship (mailer.py): address extraction and validation,
case-insensitive deduplication, JSON batch loading, template rendering
orchestration, and the rate-limited send loop.

The Python source is shallowly embedded: JSON values become an inductive
type, records become ordered association lists, the SMTP side effects of
send_messages become an explicit event trace, and the external
email_validator library (a third-party collaborator, not part of this
repository) is either an abstract parameter or a function modelled from
the specification's description of the comprehensive address check.
-/
import Mathlib

namespace Mailship

/-- A JSON value, as produced by json.load.  Objects keep field order,
matching Python dicts. -/
inductive Json where
  | null : Json
  | bool (b : Bool) : Json
  | num (q : ℚ) : Json
  | str (s : String) : Json
  | arr (elems : List Json) : Json
  | obj (fields : List (String × Json)) : Json

/-- One input record: an ordered mapping from field name to JSON value
(mailer.py passes dicts around). -/
abbrev Record := List (String × Json)

/-- EMAIL_KEY_ALIASES from mailer.py line 19 (a set; only membership is used). -/
def emailKeyAliases : List String := ["email", "e-mail", "mail"]

/-- Python regex whitespace class \s restricted to ASCII:
space, tab, newline, carriage return, vertical tab, form feed. -/
def isPyWs (c : Char) : Bool :=
  c == ' ' || c == '\t' || c == '\n' || c == '\r' || c == '\x0b' || c == '\x0c'

/-- Python str.lower (ASCII fragment, which is all the pipeline compares):
lowercase every character. -/
def pyLower (s : String) : String := String.mk (s.data.map Char.toLower)

/-- Python str.strip with no argument: remove leading and trailing whitespace. -/
def pyStrip (s : String) : String :=
  String.mk (((s.data.dropWhile isPyWs).reverse.dropWhile isPyWs).reverse)

/-- The scan of mailer.py lines 106-110: the first first-level field whose
name case-insensitively matches an alias and whose value is a string with
non-empty strip is the address candidate; its stripped value is returned. -/
def findEmailField : Record → Option String
  | [] => none
  | (k, Json.str s) :: rest =>
    if pyLower k ∈ emailKeyAliases ∧ pyStrip s ≠ "" then some (pyStrip s)
    else findEmailField rest
  | _ :: rest => findEmailField rest

/-- EMAIL_REGEX from mailer.py line 95, the anchored pattern
requiring: some non-at non-whitespace characters, an at sign, then a
domain that contains a dot with at least one character on each side.
A string matches iff it has no whitespace, exactly one at sign, a
non-empty local part, and a dot strictly inside the domain part. -/
def emailRegexMatch (s : String) : Bool :=
  let cs := s.toList
  let lp := cs.takeWhile (fun c => c ≠ '@')
  let dp := (cs.dropWhile (fun c => c ≠ '@')).drop 1
  decide (cs.count '@' = 1) && cs.all (fun c => !(isPyWs c)) &&
    !lp.isEmpty && ((dp.drop 1).dropLast.any (fun c => c == '.'))

/-- Modelled from the spec: the comprehensive address-grammar check is the
external email_validator library (validate_email with deliverability off),
a collaborator whose code is not part of this repository.  Per the spec
(section 4.1) it checks: local part non-empty, no embedded whitespace,
exactly one at sign, domain contains a dot; and its normalization
lowercases the domain portion.  Returns none where the library raises
EmailNotValidError. -/
def validateEmailSpec (s : String) : Option String :=
  let cs := s.toList
  let lp := cs.takeWhile (fun c => c ≠ '@')
  let dp := (cs.dropWhile (fun c => c ≠ '@')).drop 1
  if cs.count '@' = 1 ∧ cs.all (fun c => !(isPyWs c)) = true ∧ lp ≠ [] ∧
      dp.any (fun c => c == '.') = true then
    some (String.mk (lp ++ '@' :: dp.map Char.toLower))
  else none

/-- Classification of one record, mailer.py lines 106-127: find the address
candidate; validate it with the comprehensive check `v` (an abstract
parameter standing for email_validator.validate_email, returning the
normalized address, or none where the library raises); on failure fall
back to the regex, keeping the candidate verbatim; otherwise reject. -/
def classify (v : String → Option String) (rec : Record) : Option String :=
  match findEmailField rec with
  | none => none
  | some ev =>
    match v ev with
    | some norm => some norm
    | none => if emailRegexMatch ev then some ev else none

/-- The per-record loop of extract_emails (mailer.py lines 102-127), before
deduplication: returns (found, missing) in input order. -/
def extractPass (v : String → Option String) : List Record → List (String × Record) × List Record
  | [] => ([], [])
  | rec :: rest =>
    match classify v rec with
    | some e => ((e, rec) :: (extractPass v rest).1, (extractPass v rest).2)
    | none => ((extractPass v rest).1, rec :: (extractPass v rest).2)

/-- The deduplication loop of extract_emails (mailer.py lines 129-137):
`seen` is the set of already-seen lowercased addresses. -/
def dedupAux : List String → List (String × Record) → List (String × Record)
  | _, [] => []
  | seen, p :: rest =>
    if pyLower p.1 ∈ seen then dedupAux seen rest
    else p :: dedupAux (pyLower p.1 :: seen) rest

/-- De-duplicate by address, keeping the first occurrence (mailer.py 129-137). -/
def dedup (pairs : List (String × Record)) : List (String × Record) :=
  dedupAux [] pairs

/-- extract_emails (mailer.py lines 98-138): classification pass followed by
deduplication of the found pairs; the missing list is returned unchanged. -/
def extractEmails (v : String → Option String) (records : List Record) :
    List (String × Record) × List Record :=
  (dedup (extractPass v records).1, (extractPass v records).2)

/-- The element filter of load_json_records: keep only objects. -/
def asObj : Json → Option Record
  | Json.obj fields => some fields
  | _ => none

/-- The fixed key priority of load_json_records line 87. -/
def recognizedKeys : List String := ["items", "results", "data"]

/-- The loop of load_json_records lines 87-90: for each key in order, take
data.get(key) and return it when it is a list, otherwise try the next key. -/
def findListKey (fields : List (String × Json)) : List String → Option (List Json)
  | [] => none
  | k :: ks =>
    match fields.lookup k with
    | some (Json.arr xs) => some xs
    | _ => findListKey fields ks

/-- The ValueError message of load_json_records line 92 (quotes elided). -/
def unsupportedShapeMsg : String :=
  "Unsupported JSON shape: expected a list of objects or an object with items/results/data list."

/-- load_json_records (mailer.py lines 73-92) on an already-parsed JSON
value: a top-level list keeps its objects; a top-level object is searched
for the recognized keys; anything else raises ValueError. -/
def loadJsonRecords : Json → Except String (List Record)
  | Json.arr xs => Except.ok (xs.filterMap asObj)
  | Json.obj fields =>
    match findListKey fields recognizedKeys with
    | some xs => Except.ok (xs.filterMap asObj)
    | none => Except.error unsupportedShapeMsg
  | _ => Except.error unsupportedShapeMsg

/-- One lookup step of the key search, used to state what the loop does. -/
def keyList (fields : List (String × Json)) (k : String) : Option (List Json) :=
  match fields.lookup k with
  | some (Json.arr xs) => some xs
  | _ => none

/-- Observable events of send_messages: transport actions, pacing sleeps and
console notes.  The skip constructor exists only to state the report format
the specification describes for dry-run; the code model never emits it. -/
inductive Ev where
  | dryNote (n : Nat) : Ev
  | connect (host : String) (port : Nat) (ssl : Bool) : Ev
  | ehlo : Ev
  | starttls : Ev
  | login (user : String) : Ev
  | send (i : Nat) (dest : String) : Ev
  | progress (i : Nat) (total : Nat) (dest : String) : Ev
  | sleep (d : ℚ) : Ev
  | close : Ev
  | skip (i : Nat) (reason : String) : Ev
  deriving DecidableEq

/-- The slice of Config used by send_messages (mailer.py lines 22-33). -/
structure SendConfig where
  smtp_host : String
  smtp_port : Nat
  smtp_username : String
  smtp_password : String
  use_ssl : Bool
  rate_per_minute : Option ℚ
  deriving DecidableEq

/-- Replace the configured rate of a SendConfig. -/
def withRate (cfg : SendConfig) (r : Option ℚ) : SendConfig :=
  ⟨cfg.smtp_host, cfg.smtp_port, cfg.smtp_username, cfg.smtp_password, cfg.use_ssl, r⟩

/-- mailer.py line 185: the explicit argument overrides the configured rate
exactly when it is not None. -/
def effectiveRate (cfg : SendConfig) (rateArg : Option ℚ) : Option ℚ :=
  match rateArg with
  | some r => some r
  | none => cfg.rate_per_minute

/-- mailer.py line 186: delay = (60.0 / rate) if rate and rate > 0 else 0.0.
A None or non-positive rate is falsy there, giving a zero delay. -/
def effectiveDelay (cfg : SendConfig) (rateArg : Option ℚ) : ℚ :=
  match effectiveRate cfg rateArg with
  | some r => if 0 < r then 60 / r else 0
  | none => 0

/-- Session setup events: SMTP_SSL connect + login (lines 188-192), or the
STARTTLS path connect, ehlo, starttls, login (lines 198-204). -/
def sessionEvs (cfg : SendConfig) : List Ev :=
  if cfg.use_ssl then
    [Ev.connect cfg.smtp_host cfg.smtp_port true, Ev.login cfg.smtp_username]
  else
    [Ev.connect cfg.smtp_host cfg.smtp_port false, Ev.ehlo, Ev.starttls,
      Ev.login cfg.smtp_username]

/-- The send loop of mailer.py lines 193-197 (identical in both branches):
messages are enumerated from 1; after each send and progress line, sleep
for the delay when it is non-zero and the message is not the last. -/
def sendLoop (delay : ℚ) (total : Nat) : Nat → List String → List Ev
  | _, [] => []
  | i, dest :: rest =>
    Ev.send i dest :: Ev.progress i total dest ::
      ((if delay ≠ 0 ∧ i < total then [Ev.sleep delay] else []) ++
        sendLoop delay total (i + 1) rest)

/-- send_messages (mailer.py lines 180-209) as an event trace.  Messages are
identified by their recipient address.  Dry-run prints one summary line and
returns before any SMTP interaction; otherwise one session is opened, the
loop runs, and the with-block closes the session. -/
def sendMessages (cfg : SendConfig) (msgs : List String) (dryRun : Bool)
    (rateArg : Option ℚ) : List Ev :=
  if dryRun then [Ev.dryNote msgs.length]
  else
    sessionEvs cfg ++ sendLoop (effectiveDelay cfg rateArg) msgs.length 1 msgs ++ [Ev.close]

/-- Recognizer for pacing sleeps in a trace. -/
def isSleepEv : Ev → Bool
  | Ev.sleep _ => true
  | _ => false

/-- The two events of one loop iteration (send + progress line). -/
def sendBlock (total i : Nat) (dest : String) : List Ev :=
  [Ev.send i dest, Ev.progress i total dest]

/-- The loop iterations as a list of blocks, one per message. -/
def sendBlocks (total : Nat) : Nat → List String → List (List Ev)
  | _, [] => []
  | i, dest :: rest => sendBlock total i dest :: sendBlocks total (i + 1) rest

/-- The rendering loop of main (mailer.py lines 275-285): render each
addressed record in order; a rendering exception propagates immediately
(main has no handler around this loop). -/
def renderAll (renderer : Record → Except String String) :
    List (String × Record) → Except String (List (String × String))
  | [] => Except.ok []
  | p :: rest =>
    match renderer p.2 with
    | Except.error e => Except.error e
    | Except.ok html =>
      match renderAll renderer rest with
      | Except.error e => Except.error e
      | Except.ok ms => Except.ok ((p.1, html) :: ms)

/-- How a run of main ends: a return with an exit code, or an exception that
escapes main (a Python traceback).  Each outcome carries the transport
event trace produced before the end. -/
inductive RunOutcome where
  | exited (code : Nat) (transport : List Ev) : RunOutcome
  | uncaught (msg : String) (transport : List Ev) : RunOutcome

/-- The --list path of main (mailer.py lines 264-299) after configuration
has loaded and the batch file has been read and parsed: load_json_records
(its ValueError is not inside any try block, so it escapes main), then
extract_emails, then the eager rendering loop (rendering errors also
escape main), and only then send_messages, whose exceptions are caught and
turned into exit code 3.  The modelled transport never raises, so the
success path returns exit code 0 with the dispatch trace. -/
def mainListModel (cfg : SendConfig) (v : String → Option String)
    (renderer : Record → Except String String) (batch : Json)
    (dryRun : Bool) (rateArg : Option ℚ) : RunOutcome :=
  match loadJsonRecords batch with
  | Except.error e => RunOutcome.uncaught e []
  | Except.ok records =>
    match renderAll renderer (extractEmails v records).1 with
    | Except.error e => RunOutcome.uncaught e []
    | Except.ok rendered =>
      RunOutcome.exited 0 (sendMessages cfg (rendered.map Prod.fst) dryRun rateArg)

/-- Uppercase ASCII letter test, for stating that a domain was lowercased. -/
def isUpperAscii (c : Char) : Bool :=
  decide (65 ≤ c.toNat) && decide (c.toNat ≤ 90)

/-- The domain portion of an address string: everything after the first at sign. -/
def domainOf (e : String) : List Char :=
  (e.toList.dropWhile (fun c => c ≠ '@')).drop 1

/-- An address whose domain portion contains no uppercase ASCII letter. -/
def noUpperDomain (e : String) : Bool :=
  (domainOf e).all (fun c => !(isUpperAscii c))

/-- Record A of the spec scenario. -/
def recA : Record := [("Name", Json.str "A"), ("Email", Json.str "a@a.com")]

/-- Record B of the spec scenario (duplicate address under alias mail). -/
def recB : Record := [("Name", Json.str "B"), ("mail", Json.str "a@a.com")]

/-- Record C of the spec scenario (no address field). -/
def recC : Record := [("Name", Json.str "C")]

/-- A concrete configuration used by witnesses. -/
def cfgTest : SendConfig :=
  ⟨"smtp.example.com", 465, "user@example.com", "app-password", true, some 30⟩

/-- A renderer that fails on every context. -/
def rendFail : Record → Except String String := fun _ => Except.error "boom"

/-- A renderer that succeeds on every context. -/
def rendOk : Record → Except String String := fun _ => Except.ok "<p>hi</p>"

lemma mem_dedupAux (l : List (String × Record)) :
    ∀ (seen : List String) (p : String × Record),
      p ∈ dedupAux seen l ↔
        pyLower p.1 ∉ seen ∧ l.find? (fun q => pyLower q.1 == pyLower p.1) = some p := by
  induction l with
  | nil => intro seen p; simp [dedupAux]
  | cons q l ih =>
    intro seen p
    rw [dedupAux]
    rw [List.find?_cons]
    by_cases hqp : pyLower q.1 = pyLower p.1
    · by_cases hq : pyLower q.1 ∈ seen
      · rw [if_pos hq]
        simp only [hqp, beq_self_eq_true]
        rw [ih]
        constructor
        · rintro ⟨hns, hf⟩
          exact absurd (hqp ▸ hq) hns
        · rintro ⟨hns, hf⟩
          exact absurd (hqp ▸ hq) hns
      · rw [if_neg hq]
        simp only [hqp, beq_self_eq_true, List.mem_cons]
        rw [ih]
        constructor
        · rintro (rfl | ⟨hns, hf⟩)
          · exact ⟨hqp ▸ hq, rfl⟩
          · exact absurd (List.mem_cons_self _ _) (hqp ▸ hns ∘ (hqp ▸ ·))
        · rintro ⟨hns, hf⟩
          left
          exact (Option.some.injEq _ _ ▸ hf).symm ▸ rfl
    · have hbeq : (pyLower q.1 == pyLower p.1) = false := beq_eq_false_iff_ne.mpr hqp
      rw [hbeq]
      by_cases hq : pyLower q.1 ∈ seen
      · rw [if_pos hq]; exact ih seen p
      · rw [if_neg hq]
        simp only [List.mem_cons]
        rw [ih]
        constructor
        · rintro (rfl | ⟨hns, hf⟩)
          · exact absurd rfl hqp
          · refine ⟨fun hs => hns (List.mem_cons_of_mem _ hs), hf⟩
        · rintro ⟨hns, hf⟩
          right
          refine ⟨fun hs => ?_, hf⟩
          rcases List.mem_cons.mp hs with h | h
          · exact absurd h.symm hqp
          · exact hns h

lemma dedupAux_sublist (l : List (String × Record)) :
    ∀ seen, (dedupAux seen l).Sublist l := by
  induction l with
  | nil => intro seen; simp [dedupAux]
  | cons q l ih =>
    intro seen
    rw [dedupAux]
    by_cases hq : pyLower q.1 ∈ seen
    · rw [if_pos hq]; exact (ih seen).cons q
    · rw [if_neg hq]; exact (ih _).cons₂ q

lemma dedupAux_not_seen {l : List (String × Record)} {seen : List String}
    {p : String × Record} (h : p ∈ dedupAux seen l) : pyLower p.1 ∉ seen :=
  ((mem_dedupAux l seen p).mp h).1

lemma dedupAux_pairwise (l : List (String × Record)) :
    ∀ seen, (dedupAux seen l).Pairwise (fun p q => pyLower p.1 ≠ pyLower q.1) := by
  induction l with
  | nil => intro seen; simp [dedupAux]
  | cons q l ih =>
    intro seen
    rw [dedupAux]
    by_cases hq : pyLower q.1 ∈ seen
    · rw [if_pos hq]; exact ih seen
    · rw [if_neg hq]
      refine List.pairwise_cons.mpr ⟨fun x hx => ?_, ih _⟩
      have := dedupAux_not_seen hx
      intro hEq
      exact this (hEq ▸ List.mem_cons_self _ _)

lemma dedupAux_eq_self {l : List (String × Record)} :
    ∀ {seen : List String}, l.Pairwise (fun p q => pyLower p.1 ≠ pyLower q.1) →
      (∀ p ∈ l, pyLower p.1 ∉ seen) → dedupAux seen l = l := by
  induction l with
  | nil => intro seen _ _; rfl
  | cons q l ih =>
    intro seen hpw hns
    rw [dedupAux, if_neg (hns q (List.mem_cons_self _ _))]
    congr 1
    refine ih (List.Pairwise.of_cons hpw) fun p hp => ?_
    intro hmem
    rcases List.mem_cons.mp hmem with h | h
    · exact List.rel_of_pairwise_cons hpw hp h.symm
    · exact hns p (List.mem_cons_of_mem _ hp) h

lemma extractPass_fst (v : String → Option String) :
    ∀ rs : List Record, (extractPass v rs).1 =
      rs.filterMap (fun rec => (classify v rec).map (fun e => (e, rec))) := by
  intro rs
  induction rs with
  | nil => rfl
  | cons rec rest ih =>
    rw [extractPass]
    cases h : classify v rec with
    | none => simpa [h] using ih
    | some e => simpa [h] using ih

lemma extractPass_snd (v : String → Option String) :
    ∀ rs : List Record, (extractPass v rs).2 =
      rs.filter (fun rec => (classify v rec).isNone) := by
  intro rs
  induction rs with
  | nil => rfl
  | cons rec rest ih =>
    rw [extractPass]
    cases h : classify v rec with
    | none => simpa [h] using ih
    | some e => simpa [h] using ih

lemma extractPass_length (v : String → Option String) (rs : List Record) :
    (extractPass v rs).1.length + (extractPass v rs).2.length = rs.length := by
  induction rs with
  | nil => rfl
  | cons rec rest ih =>
    rw [extractPass]
    cases h : classify v rec with
    | none => simpa [h] using by omega
    | some e => simpa [h] using by omega

lemma mem_found_iff (v : String → Option String) (rs : List Record) (rec : Record) :
    (∃ e, (e, rec) ∈ (extractPass v rs).1) ↔ rec ∈ rs ∧ (classify v rec).isSome := by
  rw [extractPass_fst]
  constructor
  · rintro ⟨e, he⟩
    rcases List.mem_filterMap.mp he with ⟨r, hr, hfr⟩
    rcases Option.map_eq_some'.mp hfr with ⟨e', he', hpair⟩
    cases hpair
    exact ⟨hr, he' ▸ rfl⟩
  · rintro ⟨hrec, hsome⟩
    rcases Option.isSome_iff_exists.mp hsome with ⟨e, he⟩
    exact ⟨e, List.mem_filterMap.mpr ⟨rec, hrec, by rw [he]; rfl⟩⟩

lemma mem_missing_iff (v : String → Option String) (rs : List Record) (rec : Record) :
    rec ∈ (extractPass v rs).2 ↔ rec ∈ rs ∧ (classify v rec).isNone := by
  rw [extractPass_snd]; simp

lemma sendLoop_zero (total : Nat) :
    ∀ (i : Nat) (l : List String), sendLoop 0 total i l = (sendBlocks total i l).flatten := by
  intro i l
  induction l generalizing i with
  | nil => rfl
  | cons dest rest ih =>
    rw [sendLoop, sendBlocks]
    simp [sendBlock, ih]

lemma sendLoop_pos {d : ℚ} (hd : d ≠ 0) (total : Nat) :
    ∀ (l : List String) (i : Nat), i + l.length = total + 1 →
      sendLoop d total i l = ((sendBlocks total i l).intersperse [Ev.sleep d]).flatten := by
  intro l
  induction l with
  | nil => intro i h; rfl
  | cons dest rest ih =>
    intro i h
    rw [sendLoop, sendBlocks]
    cases rest with
    | nil =>
      have hi : ¬ (i < total) := by simp at h; omega
      simp [sendBlocks, sendBlock, hi, sendLoop]
    | cons dest2 rest2 =>
      have hi : i < total := by simp at h; omega
      have hrec := ih (i + 1) (by simp at h ⊢; omega)
      rw [sendBlocks] at hrec ⊢
      simp only [List.intersperse]
      rw [if_pos ⟨hd, hi⟩]
      simp only [sendBlock, List.flatten, List.cons_append, List.nil_append, List.append_assoc]
      rw [hrec]
      simp [sendBlock, List.intersperse]

lemma sendBlocks_length (total : Nat) :
    ∀ (i : Nat) (l : List String), (sendBlocks total i l).length = l.length := by
  intro i l
  induction l generalizing i with
  | nil => rfl
  | cons dest rest ih => rw [sendBlocks]; simp [ih]

lemma filter_sleep_blocks (total : Nat) :
    ∀ (i : Nat) (l : List String), ((sendBlocks total i l).flatten.filter isSleepEv) = [] := by
  intro i l
  induction l generalizing i with
  | nil => rfl
  | cons dest rest ih =>
    rw [sendBlocks]
    simp [sendBlock, isSleepEv, ih]

lemma filter_sleep_sessionEvs (cfg : SendConfig) :
    (sessionEvs cfg).filter isSleepEv = [] := by
  rw [sessionEvs]
  by_cases h : cfg.use_ssl <;> simp [h, isSleepEv]

lemma count_sleep_intersperse (d : ℚ) :
    ∀ (bs : List (List Ev)), (∀ b ∈ bs, b.filter isSleepEv = []) →
      (((bs.intersperse [Ev.sleep d]).flatten).filter isSleepEv).length = bs.length - 1 := by
  intro bs
  induction bs with
  | nil => intro _; rfl
  | cons b bs ih =>
    intro hb
    cases bs with
    | nil => simp [List.intersperse, hb b (List.mem_cons_self _ _)]
    | cons b2 bs2 =>
      have hrec := ih fun x hx => hb x (List.mem_cons_of_mem _ hx)
      simp only [List.intersperse] at hrec ⊢
      simp only [List.flatten, List.filter_append, hb b (List.mem_cons_self _ _),
        List.nil_append]
      rw [List.filter_cons]
      simp only [isSleepEv, if_true, List.filter_nil, List.length_append,
        List.length_cons, List.length_nil]
      rw [hrec]
      simp [Nat.add_comm]

lemma toNat_ofNat_valid (n : Nat) (h : n.isValidChar) : (Char.ofNat n).toNat = n := by
  rw [Char.ofNat, dif_pos h]
  rfl

lemma isUpperAscii_toLower (c : Char) : isUpperAscii c.toLower = false := by
  unfold isUpperAscii Char.toLower
  by_cases h : c.toNat ≥ 65 ∧ c.toNat ≤ 90
  · rw [if_pos h]
    have hv : (c.toNat + 32).isValidChar := Or.inl (by omega)
    rw [toNat_ofNat_valid _ hv]
    simp only [Bool.and_eq_false_iff, decide_eq_false_iff_not]
    omega
  · rw [if_neg h]
    simp only [Bool.and_eq_false_iff, decide_eq_false_iff_not]
    omega

lemma regex_implies_spec {s : String} (h : emailRegexMatch s = true) :
    (validateEmailSpec s).isSome := by
  unfold emailRegexMatch at h
  unfold validateEmailSpec
  simp only [Bool.and_eq_true, decide_eq_true_eq, List.any_eq_true, beq_iff_eq,
    Bool.not_eq_eq_eq_not, Bool.not_true, List.isEmpty_eq_false] at h
  obtain ⟨⟨⟨hcount, hws⟩, hlp⟩, c, hc, hdot⟩ := h
  rw [if_pos]
  · rfl
  refine ⟨hcount, ?_, hlp, ?_⟩
  · exact hws
  · simp only [List.any_eq_true, beq_iff_eq]
    exact ⟨c, List.drop_subset _ _ (List.dropLast_subset _ hc), hdot⟩


lemma spec_noUpperDomain {s e : String} (h : validateEmailSpec s = some e) :
    noUpperDomain e = true := by
  unfold validateEmailSpec at h
  simp only at h
  split at h
  case isFalse => exact absurd h (by simp)
  case isTrue hcond =>
    have he := (Option.some.inj h).symm
    subst he
    unfold noUpperDomain domainOf
    have hlp := List.all_eq_true.mp
      (@List.all_takeWhile _ (fun c => decide (c ≠ '@')) s.toList)
    have hdata : (String.mk (s.toList.takeWhile (fun c => decide (c ≠ '@')) ++
        '@' :: ((s.toList.dropWhile (fun c => decide (c ≠ '@'))).drop 1).map Char.toLower)).toList
        = s.toList.takeWhile (fun c => decide (c ≠ '@')) ++
          '@' :: ((s.toList.dropWhile (fun c => decide (c ≠ '@'))).drop 1).map Char.toLower := rfl
    rw [hdata, List.dropWhile_append_of_pos hlp, List.dropWhile_cons_of_neg (by simp)]
    simp only [List.drop_one, List.tail_cons, List.all_eq_true]
    intro x hx
    rcases List.mem_map.mp hx with ⟨y, _, rfl⟩
    simp [isUpperAscii_toLower]

lemma classify_spec_some {rec : Record} {e : String}
    (h : classify validateEmailSpec rec = some e) :
    ∃ ev, findEmailField rec = some ev ∧ validateEmailSpec ev = some e := by
  cases hf : findEmailField rec with
  | none => simp [classify, hf] at h
  | some ev =>
    cases hv : validateEmailSpec ev with
    | some norm =>
      simp [classify, hf, hv] at h
      exact ⟨ev, rfl, h ▸ hv⟩
    | none =>
      by_cases hr : emailRegexMatch ev
      · exact absurd (regex_implies_spec hr) (by simp [hv])
      · simp [classify, hf, hv, hr] at h

lemma blocks_filter_sleep (total : Nat) :
    ∀ (i : Nat) (l : List String) (b : List Ev), b ∈ sendBlocks total i l →
      b.filter isSleepEv = [] := by
  intro i l
  induction l generalizing i with
  | nil => intro b hb; simp [sendBlocks] at hb
  | cons dest rest ih =>
    intro b hb
    rw [sendBlocks] at hb
    rcases List.mem_cons.mp hb with rfl | hb
    · rfl
    · exact ih _ b hb

lemma keyList_step (fields : List (String × Json)) (k : String) (ks : List String) :
    findListKey fields (k :: ks) =
      (match keyList fields k with
        | some xs => some xs
        | none => findListKey fields ks) := by
  cases h : fields.lookup k with
  | none => simp [findListKey, keyList, h]
  | some v => cases v <;> simp [findListKey, keyList, h]

lemma effectiveDelay_none_pos {cfg : SendConfig} {r : ℚ}
    (hc : cfg.rate_per_minute = some r) (hr : 0 < r) :
    effectiveDelay cfg none = 60 / r := by
  simp [effectiveDelay, effectiveRate, hc, hr]

lemma effectiveDelay_none_zero {cfg : SendConfig} {r : ℚ}
    (h : cfg.rate_per_minute = none ∨ (cfg.rate_per_minute = some r ∧ r ≤ 0)) :
    effectiveDelay cfg none = 0 := by
  rcases h with h | ⟨h, hr⟩
  · simp [effectiveDelay, effectiveRate, h]
  · simp [effectiveDelay, effectiveRate, h, not_lt.mpr hr]

/-- A record whose address has an uppercase domain, used by witnesses. -/
def recUpper : Record := [("Email", Json.str "A@B.Com")]

/-- Object fields exercising the key priority: items is present but not a
list, and results wins over data although data appears first. -/
def demoFields : List (String × Json) :=
  [("items", Json.str "not-a-list"),
   ("data", Json.arr [Json.obj [("Name", Json.str "D")]]),
   ("results", Json.arr [Json.obj [("Name", Json.str "B")]])]

/-- C2: deduplication keeps the first occurrence of each address (compared
case-insensitively via full lowercase) verbatim with its original casing,
drops later occurrences of the same lowercased address, preserves the
relative input order of kept pairs (the output is a sublist of the input),
and the output addresses are pairwise distinct under case-insensitive
comparison. -/
theorem dedup_spec (l : List (String × Record)) :
    (dedup l).Sublist l ∧
    (∀ p : String × Record, p ∈ dedup l ↔
        l.find? (fun q => pyLower q.1 == pyLower p.1) = some p) ∧
    (dedup l).Pairwise (fun p q => pyLower p.1 ≠ pyLower q.1) := by
  refine ⟨dedupAux_sublist l [], fun p => ?_, dedupAux_pairwise l []⟩
  rw [dedup, mem_dedupAux]
  simp

/-- Witness for C2 at a concrete two-element input with a case-insensitive
duplicate: the first pair is kept verbatim and the output is pairwise
distinct under lowercase comparison. -/
theorem dedup_spec_witness :
    dedup [("A@x.com", recA), ("a@x.com", recB)] = [("A@x.com", recA)] ∧
    (dedup [("A@x.com", recA), ("a@x.com", recB)]).Pairwise
      (fun p q => pyLower p.1 ≠ pyLower q.1) :=
  ⟨rfl, (dedup_spec [("A@x.com", recA), ("a@x.com", recB)]).2.2⟩

/-- C8: deduplication is idempotent: dedup (dedup x) = dedup x for every
input sequence of (address, record) pairs. -/
theorem dedup_idempotent (l : List (String × Record)) : dedup (dedup l) = dedup l :=
  dedupAux_eq_self (dedupAux_pairwise l []) (fun _ _ => List.not_mem_nil _)

/-- Witness for C8 at a concrete three-element input. -/
theorem dedup_idempotent_witness :
    dedup (dedup [("A@x.com", recA), ("a@x.com", recB), ("b@y.com", recC)]) =
      dedup [("A@x.com", recA), ("a@x.com", recB), ("b@y.com", recC)] :=
  dedup_idempotent [("A@x.com", recA), ("a@x.com", recB), ("b@y.com", recC)]

/-- C1 (amended): before deduplication, every input record lands in exactly
one of the two lists of the extraction pass (the found and missing counts
sum to the input count, and a record is addressable iff it is not in
missing); extract_emails then deduplicates the found list, so a record
whose address duplicates an earlier one appears in neither final output.
For the spec scenario input the addressed output is [("a@a.com", A)] and
the summary counts are total 3, queued 1, rejected 1. -/
theorem extract_partition_amended (v : String → Option String) (rs : List Record) :
    (extractPass v rs).1.length + (extractPass v rs).2.length = rs.length ∧
    (∀ rec ∈ rs, ((∃ e, (e, rec) ∈ (extractPass v rs).1) ↔ rec ∉ (extractPass v rs).2)) ∧
    extractEmails validateEmailSpec [recA, recB, recC] = ([("a@a.com", recA)], [recC]) := by
  refine ⟨extractPass_length v rs, fun rec hrec => ?_, rfl⟩
  rw [mem_found_iff, mem_missing_iff]
  cases h : classify v rec <;> simp [hrec, h]

/-- Counterexample to C1 as stated: on the spec scenario input the rejected
list has length 1, not 2 — record B (a duplicate of an earlier address) is
dropped by deduplication and appears in neither output of extract_emails. -/
theorem extract_partition_cex :
    (extractEmails validateEmailSpec [recA, recB, recC]).2.length ≠ 2 ∧
    (extractEmails validateEmailSpec [recA, recB, recC]).1 = [("a@a.com", recA)] ∧
    (extractEmails validateEmailSpec [recA, recB, recC]).2 = [recC] :=
  ⟨by decide, rfl, rfl⟩

/-- Witness for C1 (amended) at the concrete scenario input: found and
missing counts sum to 3. -/
theorem extract_partition_witness :
    (extractPass validateEmailSpec [recA, recB, recC]).1.length +
      (extractPass validateEmailSpec [recA, recB, recC]).2.length = 3 :=
  (extract_partition_amended validateEmailSpec [recA, recB, recC]).1

/-- C3: for a non-empty message list dispatched with the configured rate r,
if r > 0 the trace is the session setup, then the per-message blocks with
exactly one sleep of 60 / r between consecutive blocks (never before the
first send or after the last), then the session close — in particular the
number of sleeps is length - 1 and every sleep carries the same delay,
computed once; if the rate is unset or non-positive there are no sleeps. -/
theorem pacing_law (cfg : SendConfig) (msgs : List String) (r : ℚ) (_hne : msgs ≠ []) :
    (cfg.rate_per_minute = some r → 0 < r →
      sendMessages cfg msgs false none =
        sessionEvs cfg ++
          ((sendBlocks msgs.length 1 msgs).intersperse [Ev.sleep (60 / r)]).flatten ++
          [Ev.close] ∧
      ((sendMessages cfg msgs false none).filter isSleepEv).length = msgs.length - 1) ∧
    ((cfg.rate_per_minute = none ∨ (cfg.rate_per_minute = some r ∧ r ≤ 0)) →
      (sendMessages cfg msgs false none).filter isSleepEv = []) := by
  constructor
  · intro hc hr
    have hd : effectiveDelay cfg none = 60 / r := effectiveDelay_none_pos hc hr
    have hdne : (60 : ℚ) / r ≠ 0 := by positivity
    have hloop := sendLoop_pos hdne msgs.length msgs 1 (by omega)
    have htrace : sendMessages cfg msgs false none =
        sessionEvs cfg ++
          ((sendBlocks msgs.length 1 msgs).intersperse [Ev.sleep (60 / r)]).flatten ++
          [Ev.close] := by
      rw [sendMessages, if_neg (by simp), hd, hloop]
    refine ⟨htrace, ?_⟩
    rw [htrace]
    have hclose : List.filter isSleepEv [Ev.close] = [] := rfl
    simp only [List.filter_append, filter_sleep_sessionEvs, List.nil_append, hclose,
      List.append_nil]
    rw [count_sleep_intersperse _ _ (fun b hb => blocks_filter_sleep _ _ _ b hb),
      sendBlocks_length]
  · intro h
    have hd : effectiveDelay cfg none = 0 := effectiveDelay_none_zero h
    rw [sendMessages, if_neg (by simp), hd, sendLoop_zero]
    simp only [List.filter_append, filter_sleep_sessionEvs, filter_sleep_blocks,
      List.nil_append]
    simp [isSleepEv]

/-- Witness for C3: three messages at 30 per minute give the interspersed
trace with 60 / 30 second sleeps strictly between the blocks. -/
theorem pacing_law_witness :
    sendMessages cfgTest ["a", "b", "c"] false none =
      sessionEvs cfgTest ++
        ((sendBlocks 3 1 ["a", "b", "c"]).intersperse [Ev.sleep (60 / 30)]).flatten ++
        [Ev.close] :=
  ((pacing_law cfgTest ["a", "b", "c"] 30 (by decide)).1 rfl (by norm_num)).1

/-- C10: the explicit rate argument overrides the configured rate exactly
when it is not None — passing None reproduces the trace obtained from the
configured rate, passing some r reproduces the trace of a configuration
whose rate is r, and passing a non-positive r disables pacing entirely
regardless of the configured rate. -/
theorem rate_override (cfg : SendConfig) (msgs : List String) (r : ℚ) :
    sendMessages cfg msgs false none = sendMessages cfg msgs false cfg.rate_per_minute ∧
    sendMessages cfg msgs false (some r) = sendMessages (withRate cfg (some r)) msgs false none ∧
    (r ≤ 0 → (sendMessages cfg msgs false (some r)).filter isSleepEv = []) := by
  refine ⟨?_, ?_, ?_⟩
  · cases h : cfg.rate_per_minute <;>
      simp [sendMessages, effectiveDelay, effectiveRate, h]
  · simp [sendMessages, effectiveDelay, effectiveRate, withRate, sessionEvs]
  · intro hr
    have hd : effectiveDelay cfg (some r) = 0 := by
      simp [effectiveDelay, effectiveRate, not_lt.mpr hr]
    rw [sendMessages, if_neg (by simp), hd, sendLoop_zero]
    simp only [List.filter_append, filter_sleep_sessionEvs, filter_sleep_blocks,
      List.nil_append]
    simp [isSleepEv]

/-- Witness for C10: an explicit rate of 0 disables pacing although the
test configuration holds a positive rate of 30. -/
theorem rate_override_witness :
    (sendMessages cfgTest ["a", "b"] false (some 0)).filter isSleepEv = [] :=
  (rate_override cfgTest ["a", "b"] 0).2.2 (by norm_num)

/-- C6 (amended): with dry_run true, dispatch performs zero transport calls
— the whole trace is one dry-run summary line carrying the count of
would-be-sent messages; no session, login, send or sleep occurs, and no
per-message Skipped outcome is produced. -/
theorem dry_run_amended (cfg : SendConfig) (msgs : List String) (rateArg : Option ℚ)
    (_hne : msgs ≠ []) :
    sendMessages cfg msgs true rateArg = [Ev.dryNote msgs.length] := by
  simp [sendMessages]

/-- Counterexample to C6 as stated: for a concrete two-message dry run the
trace contains no per-message Skipped marking with reason dry-run. -/
theorem dry_run_cex :
    Ev.skip 1 "dry-run" ∉ sendMessages cfgTest ["a@a.com", "b@b.com"] true none := by
  decide

/-- Witness for C6 (amended) at a concrete one-message input. -/
theorem dry_run_witness :
    sendMessages cfgTest ["a@a.com"] true none = [Ev.dryNote 1] :=
  dry_run_amended cfgTest ["a@a.com"] none (by decide)

/-- C4: when the batch loads successfully and template rendering fails for
any addressed record, the rendering error propagates and the run ends with
an empty transport trace — no session is opened and nothing is sent,
because the whole rendering loop runs before send_messages is called; and
when every rendering succeeds, dispatch starts only afterwards, on the
fully rendered list. -/
theorem render_error_aborts (cfg : SendConfig) (v : String → Option String)
    (renderer : Record → Except String String) (batch : Json) (dryRun : Bool)
    (rateArg : Option ℚ) (records : List Record)
    (hload : loadJsonRecords batch = Except.ok records) :
    (∀ e, renderAll renderer (extractEmails v records).1 = Except.error e →
      mainListModel cfg v renderer batch dryRun rateArg = RunOutcome.uncaught e []) ∧
    (∀ rendered, renderAll renderer (extractEmails v records).1 = Except.ok rendered →
      mainListModel cfg v renderer batch dryRun rateArg =
        RunOutcome.exited 0 (sendMessages cfg (rendered.map Prod.fst) dryRun rateArg)) := by
  constructor <;> intro x hx <;> simp [mainListModel, hload, hx]

/-- Witness for C4: a failing renderer on a one-record batch aborts the run
with an empty transport trace. -/
theorem render_error_aborts_witness :
    mainListModel cfgTest validateEmailSpec rendFail (Json.arr [Json.obj recA]) false none =
      RunOutcome.uncaught "boom" [] :=
  (render_error_aborts cfgTest validateEmailSpec rendFail (Json.arr [Json.obj recA]) false
      none [recA] rfl).1 "boom" rfl

/-- C5 (code evaluated at the failing input): a batch whose top-level JSON
value is a plain string makes load_json_records raise ValueError, and main
has no handler around that call, so the run ends as an uncaught exception
(a Python traceback with exit code 1), not as a tagged exit with code 2 as
the claim requires; dispatch never starts. -/
theorem shape_error_uncaught :
    mainListModel cfgTest validateEmailSpec rendOk (Json.str "whoops") false none =
      RunOutcome.uncaught unsupportedShapeMsg [] := rfl

/-- C7: with the spec-modelled comprehensive check, every address placed in
the addressed output has its domain portion lowercased (no uppercase ASCII
letter after the at sign) — the regex fallback can accept only candidates
the comprehensive check also accepts, so no un-normalized address gets
through — and membership in the deduplicated output is decided by full
lowercase comparison, making the output pairwise distinct under it. -/
theorem domain_lowercased (records : List Record) :
    (∀ p ∈ (extractEmails validateEmailSpec records).1, noUpperDomain p.1 = true) ∧
    (∀ p : String × Record, p ∈ (extractEmails validateEmailSpec records).1 ↔
      (extractPass validateEmailSpec records).1.find?
        (fun q => pyLower q.1 == pyLower p.1) = some p) ∧
    (extractEmails validateEmailSpec records).1.Pairwise
      (fun p q => pyLower p.1 ≠ pyLower q.1) := by
  refine ⟨?_, ?_, dedupAux_pairwise _ []⟩
  · intro p hp
    have hfound := (dedupAux_sublist _ []).subset hp
    rw [extractPass_fst] at hfound
    rcases List.mem_filterMap.mp hfound with ⟨rec, _, hfr⟩
    rcases Option.map_eq_some'.mp hfr with ⟨e, he, hpair⟩
    cases hpair
    rcases classify_spec_some he with ⟨ev, _, hv⟩
    exact spec_noUpperDomain hv
  · intro p
    rw [show (extractEmails validateEmailSpec records).1 =
      dedup (extractPass validateEmailSpec records).1 from rfl, dedup, mem_dedupAux]
    simp

/-- Witness for C7: the mixed-case candidate A at B.Com is accepted and the
address placed in the output, A at b.com, has a lowercase domain. -/
theorem domain_lowercased_witness : noUpperDomain "A@b.com" = true :=
  (domain_lowercased [recUpper]).1 ("A@b.com", recUpper) (List.Mem.head _)

/-- C9: on a top-level object, record loading follows the fixed priority
items, results, data — the first recognized key whose value is a list
wins, and a recognized key bound to a non-list value is skipped in favor
of the next key instead of raising; concretely, with items bound to a
string, the results list is used even though data appears earlier. -/
theorem key_priority (fields : List (String × Json)) :
    loadJsonRecords (Json.obj fields) =
      (match keyList fields "items" with
        | some xs => Except.ok (xs.filterMap asObj)
        | none =>
          match keyList fields "results" with
          | some ys => Except.ok (ys.filterMap asObj)
          | none =>
            match keyList fields "data" with
            | some zs => Except.ok (zs.filterMap asObj)
            | none => Except.error unsupportedShapeMsg) ∧
    loadJsonRecords (Json.obj demoFields) = Except.ok [[("Name", Json.str "B")]] := by
  constructor
  · show (match findListKey fields recognizedKeys with
      | some xs => Except.ok (xs.filterMap asObj)
      | none => Except.error unsupportedShapeMsg) = _
    simp only [recognizedKeys]
    rw [keyList_step, keyList_step, keyList_step]
    cases keyList fields "items" <;> cases keyList fields "results" <;>
      cases keyList fields "data" <;> rfl
  · rfl

/-- Witness for C9 at the concrete demo fields. -/
theorem key_priority_witness :
    loadJsonRecords (Json.obj demoFields) = Except.ok [[("Name", Json.str "B")]] :=
  (key_priority demoFields).2
end Mailship
